import Mathlib

set_option maxRecDepth 100000

/-!
Verification development for the mPass credential-state and replay-prevention
engine.  The definitions below are a shallow embedding of the on-chain logic
(`MPassRegistryV2.sol`, `MPassVerifierV2.sol`, `MPassAgeVerifier.sol`) and of
the circom circuit gadgets (`lib/merkle.circom`, `lib/nullifier.circom`,
`age/age_proof_v2.circom`).  Solidity machine integers (`uint256`, `bytes32`)
are modelled as `Nat`; mappings are total `Nat`-indexed boolean functions with
default `false`; a reverting call is an `Except.error` carrying the revert
reason, and transaction semantics (revert rolls every write back) are captured
by step functions that keep the pre-state on error.
-/

namespace MPassRegistryV2

/-- Embeds struct `CredentialRoots` of MPassRegistryV2.sol. -/
structure CredentialRoots where
  registryRoot : Nat
  revocationRoot : Nat
  updatedAt : Nat
deriving DecidableEq, Repr

/-- Embeds the contract storage of MPassRegistryV2.sol: owner, role maps,
the roots record, the two nullifier ledgers and the credential mirror maps. -/
structure State where
  owner : Nat
  authorizedIssuers : Nat → Bool
  authorizedUpdaters : Nat → Bool
  roots : CredentialRoots
  nullifierUsed : Nat → Bool
  eventNullifierUsed : Nat → Nat → Bool
  credentialExists : Nat → Bool
  credentialRevoked : Nat → Bool

/-- Pointwise update of a one-key boolean storage mapping. -/
def updFn (f : Nat → Bool) (k : Nat) (v : Bool) : Nat → Bool :=
  fun x => if x = k then v else f x

/-- Pointwise update of a two-key boolean storage mapping. -/
def updFn2 (f : Nat → Nat → Bool) (k1 k2 : Nat) (v : Bool) : Nat → Nat → Bool :=
  fun x y => if x = k1 ∧ y = k2 then v else f x y

/-- Embeds the constructor: deployer becomes owner, issuer and updater;
all mappings start at Solidity's default `false`, roots at zero. -/
def initialState (deployer : Nat) : State where
  owner := deployer
  authorizedIssuers := fun a => a == deployer
  authorizedUpdaters := fun a => a == deployer
  roots := ⟨0, 0, 0⟩
  nullifierUsed := fun _ => false
  eventNullifierUsed := fun _ _ => false
  credentialExists := fun _ => false
  credentialRevoked := fun _ => false

/-- Embeds `addIssuer` (onlyOwner). -/
def addIssuer (sender a : Nat) (s : State) : Except String State :=
  if sender ≠ s.owner then .error "Not owner"
  else .ok { s with authorizedIssuers := updFn s.authorizedIssuers a true }

/-- Embeds `removeIssuer` (onlyOwner). -/
def removeIssuer (sender a : Nat) (s : State) : Except String State :=
  if sender ≠ s.owner then .error "Not owner"
  else .ok { s with authorizedIssuers := updFn s.authorizedIssuers a false }

/-- Embeds `addUpdater` (onlyOwner). -/
def addUpdater (sender a : Nat) (s : State) : Except String State :=
  if sender ≠ s.owner then .error "Not owner"
  else .ok { s with authorizedUpdaters := updFn s.authorizedUpdaters a true }

/-- Embeds `removeUpdater` (onlyOwner). -/
def removeUpdater (sender a : Nat) (s : State) : Except String State :=
  if sender ≠ s.owner then .error "Not owner"
  else .ok { s with authorizedUpdaters := updFn s.authorizedUpdaters a false }

/-- Embeds `transferOwnership` (onlyOwner, nonzero target). -/
def transferOwnership (sender a : Nat) (s : State) : Except String State :=
  if sender ≠ s.owner then .error "Not owner"
  else if a = 0 then .error "Invalid address"
  else .ok { s with owner := a }

/-- Embeds `updateRoots` (onlyUpdater: updater or issuer); `t` is the block
timestamp, truncated to `uint64` as the source does. -/
def updateRoots (sender r v t : Nat) (s : State) : Except String State :=
  if ¬(s.authorizedUpdaters sender || s.authorizedIssuers sender) then
    .error "Not authorized updater"
  else .ok { s with roots := ⟨r, v, t % 2 ^ 64⟩ }

/-- Embeds the view `getRoots`. -/
def getRoots (s : State) : CredentialRoots := s.roots

/-- Embeds `registerCredential` (onlyIssuer; reverts when already registered). -/
def registerCredential (sender c : Nat) (s : State) : Except String State :=
  if ¬s.authorizedIssuers sender then .error "Not authorized issuer"
  else if s.credentialExists c then .error "Already registered"
  else .ok { s with credentialExists := updFn s.credentialExists c true }

/-- Embeds `revokeCredential` (onlyIssuer; reverts when not registered or
already revoked). -/
def revokeCredential (sender c : Nat) (s : State) : Except String State :=
  if ¬s.authorizedIssuers sender then .error "Not authorized issuer"
  else if ¬s.credentialExists c then .error "Not registered"
  else if s.credentialRevoked c then .error "Already revoked"
  else .ok { s with credentialRevoked := updFn s.credentialRevoked c true }

/-- Embeds the view `isCredentialValid`: registered and not revoked. -/
def isCredentialValid (s : State) (c : Nat) : Bool :=
  s.credentialExists c && !s.credentialRevoked c

/-- Embeds `useNullifier`.  The source carries no access modifier: the only
guard is the duplicate check; `sender` reaches only the emitted event. -/
def useNullifier (sender n : Nat) (s : State) : Except String State :=
  if s.nullifierUsed n then .error "Nullifier already used"
  else .ok { s with nullifierUsed := updFn s.nullifierUsed n true }

/-- Embeds `useEventNullifier`; like `useNullifier` it carries no access
modifier. -/
def useEventNullifier (sender e n : Nat) (s : State) : Except String State :=
  if s.eventNullifierUsed e n then .error "Nullifier already used for this event"
  else .ok { s with eventNullifierUsed := updFn2 s.eventNullifierUsed e n true }

/-- Embeds the view `isNullifierUsed`. -/
def isNullifierUsed (s : State) (n : Nat) : Bool := s.nullifierUsed n

/-- Embeds the view `isEventNullifierUsed`. -/
def isEventNullifierUsed (s : State) (e n : Nat) : Bool := s.eventNullifierUsed e n

/-- Embeds the loop body of `batchRegisterCredentials`: set each commitment
that does not yet exist, silently skipping the rest. -/
def batchRegLoop : List Nat → State → State
  | [], s => s
  | c :: rest, s =>
      batchRegLoop rest
        (if s.credentialExists c then s
         else { s with credentialExists := updFn s.credentialExists c true })

/-- Embeds `batchRegisterCredentials` (onlyIssuer; loop skips registered). -/
def batchRegisterCredentials (sender : Nat) (cs : List Nat) (s : State) :
    Except String State :=
  if ¬s.authorizedIssuers sender then .error "Not authorized issuer"
  else .ok (batchRegLoop cs s)

/-- Embeds the loop body of `batchRevokeCredentials`: revoke each commitment
that exists and is not yet revoked, silently skipping the rest. -/
def batchRevLoop : List Nat → State → State
  | [], s => s
  | c :: rest, s =>
      batchRevLoop rest
        (if s.credentialExists c && !s.credentialRevoked c then
          { s with credentialRevoked := updFn s.credentialRevoked c true }
         else s)

/-- Embeds `batchRevokeCredentials` (onlyIssuer; loop skips non-targets). -/
def batchRevokeCredentials (sender : Nat) (cs : List Nat) (s : State) :
    Except String State :=
  if ¬s.authorizedIssuers sender then .error "Not authorized issuer"
  else .ok (batchRevLoop cs s)

/-- One external call to the registry, with its caller and arguments. -/
inductive Op where
  | addIssuer (sender a : Nat)
  | removeIssuer (sender a : Nat)
  | addUpdater (sender a : Nat)
  | removeUpdater (sender a : Nat)
  | transferOwnership (sender a : Nat)
  | updateRoots (sender r v t : Nat)
  | register (sender c : Nat)
  | revoke (sender c : Nat)
  | useNull (sender n : Nat)
  | useEventNull (sender e n : Nat)
  | batchRegister (sender : Nat) (cs : List Nat)
  | batchRevoke (sender : Nat) (cs : List Nat)

/-- Dispatches one call to its embedded operation. -/
def applyOp : Op → State → Except String State
  | .addIssuer sender a, s => addIssuer sender a s
  | .removeIssuer sender a, s => removeIssuer sender a s
  | .addUpdater sender a, s => addUpdater sender a s
  | .removeUpdater sender a, s => removeUpdater sender a s
  | .transferOwnership sender a, s => transferOwnership sender a s
  | .updateRoots sender r v t, s => updateRoots sender r v t s
  | .register sender c, s => registerCredential sender c s
  | .revoke sender c, s => revokeCredential sender c s
  | .useNull sender n, s => useNullifier sender n s
  | .useEventNull sender e n, s => useEventNullifier sender e n s
  | .batchRegister sender cs, s => batchRegisterCredentials sender cs s
  | .batchRevoke sender cs, s => batchRevokeCredentials sender cs s

/-- Transaction semantics of one call: a revert keeps the pre-state. -/
def step (op : Op) (s : State) : State :=
  match applyOp op s with
  | .ok s' => s'
  | .error _ => s

/-- Runs a sequence of transactions. -/
def execOps (ops : List Op) (s : State) : State :=
  ops.foldl (fun s op => step op s) s

/-- A state is reachable when some transaction sequence produces it from the
freshly deployed contract. -/
def Reachable (deployer : Nat) (s : State) : Prop :=
  ∃ ops, execOps ops (initialState deployer) = s

end MPassRegistryV2

namespace MPassVerifierV2

open MPassRegistryV2

/-- Embeds the decoded Groth16 proof points `(a, b, c)` of `_decodeProof`. -/
structure G16 where
  a0 : Nat
  a1 : Nat
  b00 : Nat
  b01 : Nat
  b10 : Nat
  b11 : Nat
  c0 : Nat
  c1 : Nat
deriving DecidableEq, Repr

/-- Reads a big-endian `bytes32` word starting at `off` in a byte list, as
`uint256(bytes32(proof[off:off+32]))` does. -/
def bytes32At (proof : List Nat) (off : Nat) : Nat :=
  ((proof.drop off).take 32).foldl (fun acc b => acc * 256 + b) 0

/-- Embeds `_decodeProof`: requires at least 256 bytes, reads the eight proof
coordinates, then reads `(length - 256) / 32` public-input words. -/
def decodeProof (proof : List Nat) : Except String (G16 × List Nat) :=
  if proof.length < 256 then .error "Proof too short"
  else
    .ok (⟨bytes32At proof 0, bytes32At proof 32, bytes32At proof 64,
          bytes32At proof 96, bytes32At proof 128, bytes32At proof 160,
          bytes32At proof 192, bytes32At proof 224⟩,
         (List.range ((proof.length - 256) / 32)).map
           (fun i => bytes32At proof (256 + 32 * i)))

/-- The proof oracle: the external Groth16 verifier contract at an address,
answering one boolean for decoded points and public inputs (a failed or empty
staticcall response is folded into `false`, as `_verifyGroth16` does). -/
def Oracle : Type := Nat → G16 → List Nat → Bool

/-- Embeds struct `ProofResult` of MPassVerifierV2.sol. -/
structure ProofResult where
  valid : Bool
  nullifier : Nat
  blindedCommitment : Nat
deriving DecidableEq, Repr

/-- Embeds the return bundle of `verifyPassportDisclosure`. -/
structure PassportResult where
  result : ProofResult
  disclosedNationality : Nat
  disclosedAgeOver : Nat
  disclosedGender : Nat
deriving DecidableEq, Repr

/-- Embeds the contract storage of MPassVerifierV2.sol plus the storage of the
registry it points at; `self` is the verifier contract's own address (the
`msg.sender` the registry observes on nested calls). -/
structure VState where
  registryState : MPassRegistryV2.State
  self : Nat
  owner : Nat
  ageVerifier : Nat
  identityVerifier : Nat
  passportVerifier : Nat
  jurisdictionVerifier : Nat
  accreditedVerifier : Nat

/-- The gateway's nullifier-partition dispatch, `eventId == 0`, as written in
`verifyAgeWithNullifier` and `verifyPassportDisclosure` (lines 121 and 180 of
the verifier source). -/
def gatewaySelectsGlobal (eventId : Nat) : Bool := eventId == 0

/-- Consumption state of a nullifier in a scope, through the gateway's own
partition dispatch: scope 0 reads the global ledger, any other scope reads
that event's ledger. -/
def nullifierConsumed (s : MPassRegistryV2.State) (e n : Nat) : Bool :=
  if gatewaySelectsGlobal e then s.nullifierUsed n else s.eventNullifierUsed e n

/-- The gateway's check-and-consume block (lines 120-127 / 179-186 of the
verifier source): pick the partition by scope sentinel, re-check and mark. -/
def consumeNullifier (sender e n : Nat) (s : MPassRegistryV2.State) :
    Except String MPassRegistryV2.State :=
  if gatewaySelectsGlobal e then
    if s.nullifierUsed n then .error "Nullifier already used"
    else useNullifier sender n s
  else
    if s.eventNullifierUsed e n then .error "Nullifier already used for event"
    else useEventNullifier sender e n s

/-- Embeds `verifyAgeWithNullifier`: verifier-set gate, decode, statement
shape, predicate sanity, freshness of both roots and of the scope, oracle
delegation, then nullifier check-and-consume and result assembly. -/
def verifyAgeWithNullifier (oracle : Oracle) (minAge eventId : Nat)
    (proof : List Nat) (v : VState) : Except String (ProofResult × VState) :=
  if v.ageVerifier = 0 then .error "Age verifier not set"
  else
    match decodeProof proof with
    | .error e => .error e
    | .ok (pts, publicInputs) =>
      if publicInputs.length < 7 then .error "Invalid public inputs"
      else if publicInputs.getD 0 0 < minAge then .error "Age below minimum"
      else if publicInputs.getD 4 0 ≠ v.registryState.roots.registryRoot then
        .error "Invalid registry root"
      else if publicInputs.getD 5 0 ≠ v.registryState.roots.revocationRoot then
        .error "Invalid revocation root"
      else if publicInputs.getD 6 0 ≠ eventId then .error "Event ID mismatch"
      else if oracle v.ageVerifier pts publicInputs = false then
        .error "Invalid proof"
      else
        let nullifier := publicInputs.getD (publicInputs.length - 2) 0
        let blinded := publicInputs.getD (publicInputs.length - 1) 0
        match consumeNullifier v.self eventId nullifier v.registryState with
        | .error e => .error e
        | .ok rs =>
            .ok (⟨true, nullifier, blinded⟩, { v with registryState := rs })

/-- Embeds `verifyPassportDisclosure`: verifier-set gate, decode, freshness of
the two roots (indices 0 and 1, with Solidity's bounds panic on a short
statement), oracle delegation, extraction of the five trailing outputs (with
the `uint256` underflow panic when fewer than five words exist), then
nullifier check-and-consume.  The source performs no scope-match check. -/
def verifyPassportDisclosure (oracle : Oracle) (eventId : Nat)
    (proof : List Nat) (v : VState) : Except String (PassportResult × VState) :=
  if v.passportVerifier = 0 then .error "Passport verifier not set"
  else
    match decodeProof proof with
    | .error e => .error e
    | .ok (pts, publicInputs) =>
      match publicInputs.get? 0 with
      | none => .error "panic: array out of bounds"
      | some i0 =>
        if i0 ≠ v.registryState.roots.registryRoot then
          .error "Invalid registry root"
        else
          match publicInputs.get? 1 with
          | none => .error "panic: array out of bounds"
          | some i1 =>
            if i1 ≠ v.registryState.roots.revocationRoot then
              .error "Invalid revocation root"
            else if oracle v.passportVerifier pts publicInputs = false then
              .error "Invalid proof"
            else if publicInputs.length < 5 then
              .error "panic: arithmetic underflow"
            else
              let len := publicInputs.length
              let nullifier := publicInputs.getD (len - 5) 0
              let commitment := publicInputs.getD (len - 4) 0
              let nationality := publicInputs.getD (len - 3) 0
              let ageOver := publicInputs.getD (len - 2) 0
              let gender := publicInputs.getD (len - 1) 0
              match consumeNullifier v.self eventId nullifier v.registryState with
              | .error e => .error e
              | .ok rs =>
                  .ok (⟨⟨true, nullifier, commitment⟩, nationality, ageOver,
                        gender⟩, { v with registryState := rs })

/-- Embeds the view `verifyProofOnly`: decode the blob, then hand the decoded
statement to the proof oracle at the caller-chosen verifier address.  The body
contains no other gate and no storage write. -/
def verifyProofOnly (oracle : Oracle) (verifier : Nat) (proof : List Nat) :
    Except String Bool :=
  match decodeProof proof with
  | .error e => .error e
  | .ok (pts, publicInputs) => .ok (oracle verifier pts publicInputs)

/-- One external call to the verifier gateway. -/
inductive VCall where
  | age (oracle : Oracle) (minAge eventId : Nat) (proof : List Nat)
  | passport (oracle : Oracle) (eventId : Nat) (proof : List Nat)
  | proofOnly (oracle : Oracle) (verifier : Nat) (proof : List Nat)

/-- Transaction semantics of one gateway call: a revert keeps the pre-state,
and the `view` entry point has no state output at all. -/
def stepV (c : VCall) (v : VState) : VState :=
  match c with
  | .age oracle minAge eventId proof =>
      match verifyAgeWithNullifier oracle minAge eventId proof v with
      | .ok (_, v') => v'
      | .error _ => v
  | .passport oracle eventId proof =>
      match verifyPassportDisclosure oracle eventId proof v with
      | .ok (_, v') => v'
      | .error _ => v
  | .proofOnly _ _ _ => v

end MPassVerifierV2

namespace Circuits

/-- The BN254 scalar-field modulus, circom's default field. -/
def p : Nat := 21888242871839275222246405745257275088548364400416034343698204186575808495617

/-- Circuit signals live in the prime field of circom's default curve. -/
abbrev F := ZMod p

instance : NeZero p := ⟨by norm_num [p]⟩

instance : Fact (1 < p) := ⟨by norm_num [p]⟩

/-- Witness semantics of circomlib's `IsZero` gadget: 1 on zero input, else 0
(the unique assignment satisfying `out = -in*inv + 1` and `in*out = 0`). -/
def isZeroF (x : F) : F := if x = 0 then 1 else 0

/-- Witness semantics of circomlib's `IsEqual` gadget: `IsZero` applied to the
difference of its two inputs. -/
def isEqualF (a b : F) : F := isZeroF (b - a)

/-- Witness semantics of circomlib's `Mux1`: `out = (c[1] - c[0]) * s + c[0]`. -/
def mux1 (c0 c1 s : F) : F := (c1 - c0) * s + c0

/-- One level of `MerkleTreeInclusionProof`: the `MultiMux1(2)` pair ordering
followed by the two-input hash; a path bit of 0 keeps the running hash on the
left, a bit of 1 puts the sibling on the left. -/
def hashLevel (H : F → F → F) (cur : F) (sib : F) (bit : Bool) : F :=
  if bit then H sib cur else H cur sib

/-- The root fold of `MerkleTreeInclusionProof`: start from the leaf and fold
up through the (sibling, path-bit) levels. -/
def computeMerkleRoot (H : F → F → F) (leaf : F) (path : List (F × Bool)) : F :=
  path.foldl (fun cur sb => hashLevel H cur sb.1 sb.2) leaf

/-- The `Num2Bits(levels)` output used as the key's own path: bit `i` of the
key's numeral, little-endian. -/
def keyPathBits (levels key : Nat) : List Bool :=
  (List.range levels).map (fun i => key.testBit i)

/-- Embeds the `SparseMerkleTreeNonInclusion` template of `lib/merkle.circom`:
hash the supplied occupant leaf, blank it out through `Mux1` when the
empty-slot flag is set, recompute the root along the key's own path bits, and
multiply the root-equality indicator with the non-membership indicator
`isOld0 + (1 - isOld0) * (1 - IsEqual(key, oldKey))`. -/
def smtNonInclusion (H : F → F → F) (levels : Nat) (key root : F)
    (siblings : List F) (isOld0 oldKey oldValue : F) : F :=
  isEqualF
      (computeMerkleRoot H (mux1 (H oldKey oldValue) 0 isOld0)
        (siblings.zip (keyPathBits levels key.val)))
      root *
    (isOld0 + (1 - isOld0) * (1 - isEqualF key oldKey))

/-- Embeds the nullifier selection block of `AgeProofV2` (steps 7 of
`age/age_proof_v2.circom`, lines 118-135): `Mux1` driven by `IsZero(eventId)`
choosing between the event-bound nullifier (`c[0]`) and the global nullifier
(`c[1]`). -/
def circuitNullifier (eventNullifier globalNullifier eventId : F) : F :=
  mux1 eventNullifier globalNullifier (isZeroF eventId)

/-- The circuit-side partition selection: the scope sentinel test
`IsZero(eventId)` deciding that the global derivation is used. -/
def circuitSelectsGlobal (eventId : F) : Bool := decide (isZeroF eventId = 1)

end Circuits

namespace MPassVerifierV2

open MPassRegistryV2

/-- A proof oracle that accepts everything: used to exercise the gateway at
concrete inputs where the cryptographic primitive is stipulated valid. -/
def oracleT : Oracle := fun _ _ _ => true

/-- The all-zero decoded proof points. -/
def g16Zero : G16 := ⟨0, 0, 0, 0, 0, 0, 0, 0⟩

/-- Builds a proof blob whose 256 point bytes are zero and whose decoded
public inputs are exactly the given words (each word below 256 so that it
fits in the last byte of its 32-byte slot). -/
def encodeStatement (ins : List Nat) : List Nat :=
  List.replicate 256 0 ++ (ins.map (fun v => List.replicate 31 0 ++ [v])).flatten

/-- A deployed gateway over a freshly deployed registry, with the age and
passport verifier addresses set. -/
def w1State : VState where
  registryState := initialState 1
  self := 9
  owner := 1
  ageVerifier := 3
  identityVerifier := 0
  passportVerifier := 4
  jurisdictionVerifier := 0
  accreditedVerifier := 0

/-- A conforming age statement against the fresh roots: disclosed age
threshold 5, both roots 0, scope 0, nullifier 42, blinded commitment 9. -/
def w1Ins : List Nat := [5, 0, 0, 0, 0, 0, 0, 42, 9]

/-- The byte blob carrying `w1Ins`. -/
def w1Proof : List Nat := encodeStatement w1Ins

/-- The gateway state after the age statement of `w1Proof` is consumed:
global nullifier 42 is marked used. -/
def w1Post : VState :=
  { w1State with
    registryState :=
      { w1State.registryState with
        nullifierUsed := updFn w1State.registryState.nullifierUsed 42 true } }

/-- A gateway whose registry holds registry root 1, so that all-zero
statements are stale. -/
def w2State : VState where
  registryState := { initialState 1 with roots := ⟨1, 0, 0⟩ }
  self := 9
  owner := 1
  ageVerifier := 3
  identityVerifier := 0
  passportVerifier := 4
  jurisdictionVerifier := 0
  accreditedVerifier := 0

/-- An age statement claiming registry root 0 (stale against `w2State`). -/
def w2Ins : List Nat := [0, 0, 0, 0, 0, 0, 0, 42, 9]

/-- The byte blob carrying `w2Ins`. -/
def w2Proof : List Nat := encodeStatement w2Ins

/-- Modelled from the spec: the scope slot of the passport-disclosure
statement.  The passport circuit itself is not part of the repository (only
the gateway that consumes its statements is), so the statement layout follows
§4.5 of the spec: the claimed registry root, the claimed revocation root,
then the scope, followed by the derived output values. -/
def passportStatementScope (ins : List Nat) : Nat := ins.getD 2 0

/-- A passport statement against fresh roots whose embedded scope slot is 5:
roots 0 and 0, scope 5, then outputs nullifier 77, commitment 66 and the
three disclosure fields 1, 2, 3. -/
def pxIns : List Nat := [0, 0, 5, 77, 66, 1, 2, 3]

/-- The byte blob carrying `pxIns`. -/
def pxProof : List Nat := encodeStatement pxIns

/-- The gateway state after `pxProof` is consumed under caller scope 7:
nullifier 77 is marked used in event partition 7. -/
def pxPost : VState :=
  { w1State with
    registryState :=
      { w1State.registryState with
        eventNullifierUsed :=
          updFn2 w1State.registryState.eventNullifierUsed 7 77 true } }

/-- An age statement whose claimed registry root (word 4) is 9, stale against
the fresh roots of `w1State`. -/
def c10Ins : List Nat := [0, 0, 0, 0, 9, 0, 0, 42, 7]

/-- The byte blob carrying `c10Ins`. -/
def c10Proof : List Nat := encodeStatement c10Ins

end MPassVerifierV2

namespace MPassRegistryV2

/-- The registry after the deployer registers commitment 10. -/
def w4S1 : State := step (.register 1 10) (initialState 1)

/-- The registry after the deployer then revokes commitment 10. -/
def w4S2 : State := step (.revoke 1 10) w4S1

/-- A later transaction mix: an unrelated registration, a root advance, a
batch registration touching the revoked commitment, a batch revocation and a
nullifier consumption. -/
def w4Ops : List Op :=
  [.register 1 11, .updateRoots 1 5 6 7, .batchRegister 1 [10, 12],
   .batchRevoke 1 [12], .useNull 3 42]

/-- The registry after global nullifier 42 is consumed on a fresh deployment. -/
def w6Post : State :=
  { initialState 1 with nullifierUsed := updFn (initialState 1).nullifierUsed 42 true }

end MPassRegistryV2

namespace Circuits

/-- A concrete two-input hash for exercising the Merkle gadgets. -/
def wH : F → F → F := fun a b => a + 2 * b

/-- Concrete sibling values for a depth-2 sparse-tree path. -/
def w8Sibs : List F := [5, 7]

end Circuits

namespace MPassRegistryV2

theorem batchRegLoop_revoked (cs : List Nat) (s : State) :
    (batchRegLoop cs s).credentialRevoked = s.credentialRevoked := by
  induction cs generalizing s with
  | nil => rfl
  | cons c rest ih =>
      simp only [batchRegLoop]
      rw [ih]
      split <;> rfl

theorem batchRegLoop_exists_mono (cs : List Nat) (s : State) (c : Nat)
    (h : s.credentialExists c = true) :
    (batchRegLoop cs s).credentialExists c = true := by
  induction cs generalizing s with
  | nil => exact h
  | cons c0 rest ih =>
      simp only [batchRegLoop]
      apply ih
      split
      · exact h
      · show updFn s.credentialExists c0 true c = true
        unfold updFn
        split
        · rfl
        · exact h

theorem batchRevLoop_exists (cs : List Nat) (s : State) :
    (batchRevLoop cs s).credentialExists = s.credentialExists := by
  induction cs generalizing s with
  | nil => rfl
  | cons c rest ih =>
      simp only [batchRevLoop]
      rw [ih]
      split <;> rfl

theorem batchRevLoop_revoked_mono (cs : List Nat) (s : State) (c : Nat)
    (h : s.credentialRevoked c = true) :
    (batchRevLoop cs s).credentialRevoked c = true := by
  induction cs generalizing s with
  | nil => exact h
  | cons c0 rest ih =>
      simp only [batchRevLoop]
      apply ih
      split
      · show updFn s.credentialRevoked c0 true c = true
        unfold updFn
        split
        · rfl
        · exact h
      · exact h

theorem step_revoked_mono (op : Op) (s : State) (c : Nat)
    (h : s.credentialRevoked c = true) :
    (step op s).credentialRevoked c = true := by
  cases op with
  | addIssuer sender a =>
      simp only [step, applyOp, addIssuer]
      split_ifs <;> exact h
  | removeIssuer sender a =>
      simp only [step, applyOp, removeIssuer]
      split_ifs <;> exact h
  | addUpdater sender a =>
      simp only [step, applyOp, addUpdater]
      split_ifs <;> exact h
  | removeUpdater sender a =>
      simp only [step, applyOp, removeUpdater]
      split_ifs <;> exact h
  | transferOwnership sender a =>
      simp only [step, applyOp, transferOwnership]
      split_ifs <;> exact h
  | updateRoots sender r v t =>
      simp only [step, applyOp, updateRoots]
      split_ifs <;> exact h
  | register sender c0 =>
      simp only [step, applyOp, registerCredential]
      split_ifs <;> exact h
  | revoke sender c0 =>
      simp only [step, applyOp, revokeCredential]
      split_ifs <;> try exact h
      show updFn s.credentialRevoked c0 true c = true
      unfold updFn
      split
      · rfl
      · exact h
  | useNull sender n =>
      simp only [step, applyOp, useNullifier]
      split_ifs <;> exact h
  | useEventNull sender e n =>
      simp only [step, applyOp, useEventNullifier]
      split_ifs <;> exact h
  | batchRegister sender cs =>
      simp only [step, applyOp, batchRegisterCredentials]
      split_ifs
      · show (batchRegLoop cs s).credentialRevoked c = true
        rw [batchRegLoop_revoked]
        exact h
      · exact h
  | batchRevoke sender cs =>
      simp only [step, applyOp, batchRevokeCredentials]
      split_ifs
      · exact batchRevLoop_revoked_mono cs s c h
      · exact h

theorem execOps_revoked_mono (ops : List Op) (s : State) (c : Nat)
    (h : s.credentialRevoked c = true) :
    (execOps ops s).credentialRevoked c = true := by
  induction ops generalizing s with
  | nil => exact h
  | cons op rest ih =>
      show (execOps rest (step op s)).credentialRevoked c = true
      exact ih _ (step_revoked_mono op s c h)

/-- C4: once `revokeCredential(c)` succeeds, `isCredentialValid(c)` is false
after every later sequence of registry transactions (registrations,
revocations, batches, root advances, nullifier writes, role changes): no
operation clears the revoked mark. -/
theorem revocation_is_permanent (sender c : Nat) (s s' : State)
    (h : revokeCredential sender c s = .ok s') (ops : List Op) :
    isCredentialValid (execOps ops s') c = false := by
  have hrev : s'.credentialRevoked c = true := by
    unfold revokeCredential at h
    split_ifs at h with h1 h2 h3
    simp only [Except.ok.injEq] at h
    subst h
    show updFn s.credentialRevoked c true c = true
    unfold updFn
    split
    · rfl
    · simp at *
  have hall := execOps_revoked_mono ops s' c hrev
  unfold isCredentialValid
  rw [hall]
  simp

/-- C4 witness: deployer registers then revokes commitment 10, and after a
mixed batch of later transactions the commitment still reads invalid. -/
theorem revocation_is_permanent_witness :
    revokeCredential 1 10 w4S1 = .ok w4S2 ∧
    isCredentialValid (execOps w4Ops w4S2) 10 = false :=
  ⟨rfl, revocation_is_permanent 1 10 w4S1 w4S2 rfl w4Ops⟩

/-- C3 counterexample: address 42 holds no role at all on a fresh deployment
(not owner, not issuer, not updater, and certainly not a gateway the engine
knows of), yet its direct `useNullifier` call succeeds and flips the ledger
entry, instead of being rejected as an authorization failure. -/
theorem nullifier_write_without_authorization :
    (initialState 1).authorizedIssuers 42 = false ∧
    (initialState 1).authorizedUpdaters 42 = false ∧
    ¬((initialState 1).owner = 42) ∧
    useNullifier 42 7 (initialState 1) =
      .ok { initialState 1 with
              nullifierUsed := updFn (initialState 1).nullifierUsed 7 true } ∧
    updFn (initialState 1).nullifierUsed 7 true 7 = true :=
  ⟨rfl, rfl, by decide, rfl, rfl⟩

/-- C3 amended: the two nullifier-ledger writes are permissionless: the
outcome never depends on the caller, an unused entry is always set, and the
only rejection is the duplicate-consumption state conflict. -/
theorem nullifier_writes_permissionless (sender sender' e n : Nat) (s : State) :
    useNullifier sender n s = useNullifier sender' n s ∧
    useEventNullifier sender e n s = useEventNullifier sender' e n s ∧
    (s.nullifierUsed n = false →
      useNullifier sender n s =
        .ok { s with nullifierUsed := updFn s.nullifierUsed n true }) ∧
    (s.nullifierUsed n = true →
      useNullifier sender n s = .error "Nullifier already used") ∧
    (s.eventNullifierUsed e n = false →
      useEventNullifier sender e n s =
        .ok { s with eventNullifierUsed := updFn2 s.eventNullifierUsed e n true }) ∧
    (s.eventNullifierUsed e n = true →
      useEventNullifier sender e n s =
        .error "Nullifier already used for this event") := by
  refine ⟨rfl, rfl, fun h => ?_, fun h => ?_, fun h => ?_, fun h => ?_⟩ <;>
    simp [useNullifier, useEventNullifier, h]

/-- C3 amended witness: a fresh ledger entry is set by an arbitrary caller. -/
theorem nullifier_writes_permissionless_witness :
    (initialState 1).nullifierUsed 7 = false ∧
    useNullifier 5 7 (initialState 1) =
      .ok { initialState 1 with
              nullifierUsed := updFn (initialState 1).nullifierUsed 7 true } :=
  ⟨rfl, (nullifier_writes_permissionless 5 6 2 7 (initialState 1)).2.2.1 rfl⟩

end MPassRegistryV2

namespace MPassVerifierV2

open MPassRegistryV2

/-- C6: consuming a nullifier in one scope through the gateway's partition
dispatch leaves the consumption state of every nullifier in every other scope
unchanged: a global consumption touches no event partition, and an event
consumption touches neither another event partition nor the global one. -/
theorem consume_scope_isolated (sender e1 n1 e2 n2 : Nat)
    (s s' : MPassRegistryV2.State)
    (h : consumeNullifier sender e1 n1 s = .ok s') (hne : e2 ≠ e1) :
    nullifierConsumed s' e2 n2 = nullifierConsumed s e2 n2 := by
  unfold consumeNullifier at h
  unfold nullifierConsumed gatewaySelectsGlobal at *
  simp only [beq_iff_eq] at h ⊢
  by_cases h1 : e1 = 0
  · subst h1
    rw [if_pos rfl] at h
    by_cases hu : s.nullifierUsed n1 = true
    · rw [if_pos hu] at h
      exact Except.noConfusion h
    · rw [if_neg hu] at h
      unfold useNullifier at h
      rw [if_neg hu] at h
      simp only [Except.ok.injEq] at h
      subst h
      rw [if_neg hne, if_neg hne]
  · rw [if_neg h1] at h
    by_cases hu : s.eventNullifierUsed e1 n1 = true
    · rw [if_pos hu] at h
      exact Except.noConfusion h
    · rw [if_neg hu] at h
      unfold useEventNullifier at h
      rw [if_neg hu] at h
      simp only [Except.ok.injEq] at h
      subst h
      by_cases he2 : e2 = 0
      · rw [if_pos he2, if_pos he2]
      · rw [if_neg he2, if_neg he2]
        show updFn2 s.eventNullifierUsed e1 n1 true e2 n2 = s.eventNullifierUsed e2 n2
        unfold updFn2
        rw [if_neg (fun hc => hne hc.1)]

/-- C6 witness: consuming global nullifier 42 leaves the consumption state of
nullifier 42 in event scope 5 unchanged. -/
theorem consume_scope_isolated_witness :
    consumeNullifier 9 0 42 (initialState 1) = .ok w6Post ∧ (5 : Nat) ≠ 0 ∧
    nullifierConsumed w6Post 5 42 = nullifierConsumed (initialState 1) 5 42 :=
  ⟨rfl, by decide,
   consume_scope_isolated 9 0 42 5 42 (initialState 1) w6Post rfl (by decide)⟩

end MPassVerifierV2

namespace MPassRegistryV2

/-- C9: with an authorized issuer, each batch call always succeeds; a batch
element already in the target state is silently skipped (dropping it from the
front changes nothing) while the single-item call on the same state fails
hard; and a batch element not in the target state is processed with exactly
the single-item success semantics, element by element. -/
theorem batch_skips_single_strict (sender : Nat) (s : State)
    (hIss : s.authorizedIssuers sender = true) :
    (∀ cs, ∃ s', batchRegisterCredentials sender cs s = .ok s') ∧
    (∀ cs, ∃ s', batchRevokeCredentials sender cs s = .ok s') ∧
    (∀ c cs, s.credentialExists c = true →
      batchRegisterCredentials sender (c :: cs) s =
        batchRegisterCredentials sender cs s ∧
      registerCredential sender c s = .error "Already registered") ∧
    (∀ c cs, s.credentialExists c = false →
      batchRegisterCredentials sender (c :: cs) s =
        (registerCredential sender c s).bind (batchRegisterCredentials sender cs)) ∧
    (∀ c cs, (s.credentialExists c = false ∨ s.credentialRevoked c = true) →
      batchRevokeCredentials sender (c :: cs) s =
        batchRevokeCredentials sender cs s) ∧
    (∀ c, s.credentialExists c = false →
      revokeCredential sender c s = .error "Not registered") ∧
    (∀ c, s.credentialExists c = true → s.credentialRevoked c = true →
      revokeCredential sender c s = .error "Already revoked") ∧
    (∀ c cs, s.credentialExists c = true → s.credentialRevoked c = false →
      batchRevokeCredentials sender (c :: cs) s =
        (revokeCredential sender c s).bind (batchRevokeCredentials sender cs)) := by
  refine ⟨?_, ?_, ?_, ?_, ?_, ?_, ?_, ?_⟩
  · intro cs
    exact ⟨batchRegLoop cs s, by simp [batchRegisterCredentials, hIss]⟩
  · intro cs
    exact ⟨batchRevLoop cs s, by simp [batchRevokeCredentials, hIss]⟩
  · intro c cs h
    constructor
    · simp [batchRegisterCredentials, hIss, batchRegLoop, h]
    · simp [registerCredential, hIss, h]
  · intro c cs h
    simp [batchRegisterCredentials, registerCredential, hIss, h, batchRegLoop,
          Except.bind]
  · intro c cs h
    rcases h with h | h <;>
      simp [batchRevokeCredentials, hIss, batchRevLoop, h]
  · intro c h
    simp [revokeCredential, hIss, h]
  · intro c h1 h2
    simp [revokeCredential, hIss, h1, h2]
  · intro c cs h1 h2
    simp [batchRevokeCredentials, revokeCredential, hIss, h1, h2, batchRevLoop,
          Except.bind]

/-- C9 witness: the deployer issuer can always run a batch registration,
duplicate elements included. -/
theorem batch_skips_single_strict_witness :
    (initialState 1).authorizedIssuers 1 = true ∧
    (∃ s', batchRegisterCredentials 1 [10, 10, 11] (initialState 1) = .ok s') :=
  ⟨rfl, (batch_skips_single_strict 1 (initialState 1) rfl).1 [10, 10, 11]⟩

end MPassRegistryV2

namespace MPassRegistryV2

theorem batchRevLoop_inv (cs : List Nat) (s : State)
    (h : ∀ c, s.credentialRevoked c = true → s.credentialExists c = true)
    (c : Nat) (hc : (batchRevLoop cs s).credentialRevoked c = true) :
    (batchRevLoop cs s).credentialExists c = true := by
  induction cs generalizing s with
  | nil => exact h c hc
  | cons c0 rest ih =>
      simp only [batchRevLoop] at hc ⊢
      refine ih _ ?_ hc
      intro c' hc'
      by_cases hcond : (s.credentialExists c0 && !s.credentialRevoked c0) = true
      · rw [if_pos hcond] at hc' ⊢
        have hc'' : updFn s.credentialRevoked c0 true c' = true := hc'
        show s.credentialExists c' = true
        unfold updFn at hc''
        by_cases hc0 : c' = c0
        · subst hc0
          exact (Bool.and_eq_true _ _ |>.mp hcond).1
        · rw [if_neg hc0] at hc''
          exact h c' hc''
      · rw [if_neg hcond] at hc' ⊢
        exact h c' hc'

theorem step_inv (op : Op) (s : State)
    (h : ∀ c, s.credentialRevoked c = true → s.credentialExists c = true)
    (c : Nat) (hc : (step op s).credentialRevoked c = true) :
    (step op s).credentialExists c = true := by
  cases op with
  | addIssuer sender a =>
      simp only [step, applyOp, addIssuer] at hc ⊢
      split_ifs at hc ⊢ <;> exact h c hc
  | removeIssuer sender a =>
      simp only [step, applyOp, removeIssuer] at hc ⊢
      split_ifs at hc ⊢ <;> exact h c hc
  | addUpdater sender a =>
      simp only [step, applyOp, addUpdater] at hc ⊢
      split_ifs at hc ⊢ <;> exact h c hc
  | removeUpdater sender a =>
      simp only [step, applyOp, removeUpdater] at hc ⊢
      split_ifs at hc ⊢ <;> exact h c hc
  | transferOwnership sender a =>
      simp only [step, applyOp, transferOwnership] at hc ⊢
      split_ifs at hc ⊢ <;> exact h c hc
  | updateRoots sender r v t =>
      simp only [step, applyOp, updateRoots] at hc ⊢
      split_ifs at hc ⊢ <;> exact h c hc
  | register sender c0 =>
      simp only [step, applyOp, registerCredential] at hc ⊢
      split_ifs at hc ⊢ <;> try exact h c hc
      show updFn s.credentialExists c0 true c = true
      unfold updFn
      by_cases hc0 : c = c0
      · rw [if_pos hc0]
      · rw [if_neg hc0]
        exact h c hc
  | revoke sender c0 =>
      simp only [step, applyOp, revokeCredential] at hc ⊢
      split_ifs at hc ⊢ with g1 g2 g3 <;> try exact h c hc
      have hc'' : updFn s.credentialRevoked c0 true c = true := hc
      show s.credentialExists c = true
      unfold updFn at hc''
      by_cases hc0 : c = c0
      · subst hc0
        exact g2
      · rw [if_neg hc0] at hc''
        exact h c hc''
  | useNull sender n =>
      simp only [step, applyOp, useNullifier] at hc ⊢
      split_ifs at hc ⊢ <;> exact h c hc
  | useEventNull sender e n =>
      simp only [step, applyOp, useEventNullifier] at hc ⊢
      split_ifs at hc ⊢ <;> exact h c hc
  | batchRegister sender cs =>
      simp only [step, applyOp, batchRegisterCredentials] at hc ⊢
      split_ifs at hc ⊢
      · rw [batchRegLoop_revoked] at hc
        exact batchRegLoop_exists_mono cs s c (h c hc)
      · exact h c hc
  | batchRevoke sender cs =>
      simp only [step, applyOp, batchRevokeCredentials] at hc ⊢
      split_ifs at hc ⊢
      · exact batchRevLoop_inv cs s h c hc
      · exact h c hc

theorem reachable_revoked_registered (d : Nat) (s : State) (hr : Reachable d s)
    (c : Nat) (hc : s.credentialRevoked c = true) :
    s.credentialExists c = true := by
  obtain ⟨ops, rfl⟩ := hr
  have main : ∀ (ops : List Op) (s0 : State),
      (∀ c, s0.credentialRevoked c = true → s0.credentialExists c = true) →
      ∀ c, (execOps ops s0).credentialRevoked c = true →
        (execOps ops s0).credentialExists c = true := by
    intro ops
    induction ops with
    | nil => intro s0 h0; exact h0
    | cons op rest ih =>
        intro s0 h0 c hc
        show (execOps rest (step op s0)).credentialExists c = true
        exact ih (step op s0) (fun c' hc' => step_inv op s0 h0 c' hc') c hc
  refine main ops (initialState d) ?_ c hc
  intro c' hc'
  simp [initialState] at hc'

/-- C5: from any reachable state, after a successful `registerCredential(c)`
the commitment reads valid, a second `registerCredential(c)` can never
succeed, it fails with exactly the duplicate-registration conflict whenever
the caller is an authorized issuer, and the failed attempt leaves the state
(and in particular the validity of `c`) unchanged. -/
theorem register_twice_conflict (d sender c : Nat) (s s1 : State)
    (hr : Reachable d s) (h : registerCredential sender c s = .ok s1) :
    isCredentialValid s1 c = true ∧
    (∀ sender2 s2, registerCredential sender2 c s1 ≠ .ok s2) ∧
    (∀ sender2, s1.authorizedIssuers sender2 = true →
      registerCredential sender2 c s1 = .error "Already registered") ∧
    (∀ sender2, step (Op.register sender2 c) s1 = s1 ∧
      isCredentialValid (step (Op.register sender2 c) s1) c = true) := by
  unfold registerCredential at h
  split_ifs at h with h1 h2
  simp only [Except.ok.injEq] at h
  subst h
  have hrev : s.credentialRevoked c = false := by
    cases hcr : s.credentialRevoked c
    · rfl
    · exact absurd (reachable_revoked_registered d s hr c hcr) h2
  have hex : ({ s with credentialExists := updFn s.credentialExists c true }
      : State).credentialExists c = true := by
    show updFn s.credentialExists c true c = true
    unfold updFn
    rw [if_pos rfl]
  have hvalid : isCredentialValid
      { s with credentialExists := updFn s.credentialExists c true } c = true := by
    unfold isCredentialValid
    rw [hex]
    show (true && !s.credentialRevoked c) = true
    rw [hrev]
    rfl
  have hnever : ∀ sender2 s2, registerCredential sender2 c
      { s with credentialExists := updFn s.credentialExists c true } ≠ .ok s2 := by
    intro sender2 s2 heq
    unfold registerCredential at heq
    split_ifs at heq
  have herr : ∀ sender2,
      ({ s with credentialExists := updFn s.credentialExists c true }
        : State).authorizedIssuers sender2 = true →
      registerCredential sender2 c
        { s with credentialExists := updFn s.credentialExists c true } =
        .error "Already registered" := by
    intro sender2 hA
    unfold registerCredential
    rw [if_neg (not_not_intro hA), if_pos hex]
  refine ⟨hvalid, hnever, herr, ?_⟩
  intro sender2
  have hstep : step (Op.register sender2 c)
      { s with credentialExists := updFn s.credentialExists c true } =
      { s with credentialExists := updFn s.credentialExists c true } := by
    simp only [step, applyOp]
    cases hres : registerCredential sender2 c
        { s with credentialExists := updFn s.credentialExists c true } with
    | error msg => rfl
    | ok s2 => exact absurd hres (hnever sender2 s2)
  exact ⟨hstep, by rw [hstep]; exact hvalid⟩

/-- C5 witness: on a fresh deployment the deployer registers commitment 10;
the state is reachable, the registration succeeds, and the conflict behavior
of a second registration follows. -/
theorem register_twice_conflict_witness :
    Reachable 1 (initialState 1) ∧
    registerCredential 1 10 (initialState 1) = .ok w4S1 ∧
    (isCredentialValid w4S1 10 = true ∧
     (∀ sender2 s2, registerCredential sender2 10 w4S1 ≠ .ok s2) ∧
     (∀ sender2, w4S1.authorizedIssuers sender2 = true →
       registerCredential sender2 10 w4S1 = .error "Already registered") ∧
     (∀ sender2, step (Op.register sender2 10) w4S1 = w4S1 ∧
       isCredentialValid (step (Op.register sender2 10) w4S1) 10 = true)) :=
  ⟨⟨[], rfl⟩, rfl, register_twice_conflict 1 1 10 (initialState 1) w4S1 ⟨[], rfl⟩ rfl⟩

end MPassRegistryV2

namespace Circuits

theorem isEqualF_eq_one_iff (a b : F) : isEqualF a b = 1 ↔ a = b := by
  unfold isEqualF isZeroF
  split_ifs with h
  · have hba : b = a := sub_eq_zero.mp h
    simp [hba]
  · have hba : b ≠ a := sub_ne_zero.mp h
    simp [zero_ne_one, Ne.symm hba]

theorem isEqualF_cases (a b : F) : isEqualF a b = 0 ∨ isEqualF a b = 1 := by
  unfold isEqualF isZeroF
  split_ifs
  · right
    rfl
  · left
    rfl

theorem mul01_eq_one_iff {a b : F} (ha : a = 0 ∨ a = 1) (hb : b = 0 ∨ b = 1) :
    a * b = 1 ↔ (a = 1 ∧ b = 1) := by
  rcases ha with rfl | rfl <;> rcases hb with rfl | rfl <;>
    simp [zero_ne_one, one_ne_zero]

/-- C7: the zero-knowledge circuit and the verifying gateway make the same
partition selection at every scope: the circuit's `Mux1` driven by
`IsZero(eventId)` yields the global nullifier exactly when the gateway's
`eventId == 0` dispatch selects the global ledger, and the two boolean
selection functions agree extensionally. -/
theorem circuit_gateway_partition_agree :
    ∀ (e ev g : F),
      circuitNullifier ev g e =
        (if MPassVerifierV2.gatewaySelectsGlobal e.val then g else ev) ∧
      circuitSelectsGlobal e = MPassVerifierV2.gatewaySelectsGlobal e.val := by
  intro e ev g
  by_cases he : e = 0
  · subst he
    have hgw : MPassVerifierV2.gatewaySelectsGlobal (0 : F).val = true := by
      simp [MPassVerifierV2.gatewaySelectsGlobal, ZMod.val_zero]
    rw [hgw]
    constructor
    · rw [if_pos rfl]
      unfold circuitNullifier mux1 isZeroF
      rw [if_pos rfl]
      ring
    · unfold circuitSelectsGlobal isZeroF
      rw [if_pos rfl]
      simp
  · have hv : e.val ≠ 0 := fun hv0 => he ((ZMod.val_eq_zero e).mp hv0)
    have hgw : MPassVerifierV2.gatewaySelectsGlobal e.val = false := by
      simp [MPassVerifierV2.gatewaySelectsGlobal, hv]
    rw [hgw]
    constructor
    · rw [if_neg (by simp)]
      unfold circuitNullifier mux1 isZeroF
      rw [if_neg he]
      ring
    · unfold circuitSelectsGlobal isZeroF
      rw [if_neg he]
      simp [zero_ne_one]

/-- C8: the sparse non-inclusion verifier outputs 1 exactly when the Merkle
root recomputed from the supplied leaf (the zero leaf when the empty-slot
flag is set, the occupant hash otherwise) along the key's own path bits
equals the claimed root and additionally the empty-slot flag is set or the
occupant key differs from the query key; in every other well-formed case it
outputs 0. -/
theorem smt_noninclusion_spec (H : F → F → F) (levels : Nat) (key root : F)
    (siblings : List F) (isOld0 oldKey oldValue : F)
    (hb : isOld0 = 0 ∨ isOld0 = 1) :
    (smtNonInclusion H levels key root siblings isOld0 oldKey oldValue = 1 ↔
      (computeMerkleRoot H (if isOld0 = 1 then 0 else H oldKey oldValue)
          (siblings.zip (keyPathBits levels key.val)) = root ∧
        (isOld0 = 1 ∨ oldKey ≠ key))) ∧
    (smtNonInclusion H levels key root siblings isOld0 oldKey oldValue = 0 ↔
      ¬(computeMerkleRoot H (if isOld0 = 1 then 0 else H oldKey oldValue)
          (siblings.zip (keyPathBits levels key.val)) = root ∧
        (isOld0 = 1 ∨ oldKey ≠ key))) := by
  have hleaf : mux1 (H oldKey oldValue) 0 isOld0 =
      (if isOld0 = 1 then 0 else H oldKey oldValue) := by
    rcases hb with rfl | rfl
    · rw [if_neg (fun h => zero_ne_one (α := F) h)]
      unfold mux1
      ring
    · rw [if_pos rfl]
      unfold mux1
      ring
  have hform : smtNonInclusion H levels key root siblings isOld0 oldKey oldValue =
      isEqualF
        (computeMerkleRoot H (if isOld0 = 1 then 0 else H oldKey oldValue)
          (siblings.zip (keyPathBits levels key.val)))
        root *
      (isOld0 + (1 - isOld0) * (1 - isEqualF key oldKey)) := by
    unfold smtNonInclusion
    rw [hleaf]
  have hrc := isEqualF_cases
    (computeMerkleRoot H (if isOld0 = 1 then 0 else H oldKey oldValue)
      (siblings.zip (keyPathBits levels key.val))) root
  have hrc1 := isEqualF_eq_one_iff
    (computeMerkleRoot H (if isOld0 = 1 then 0 else H oldKey oldValue)
      (siblings.zip (keyPathBits levels key.val))) root
  have hB01 : (isOld0 + (1 - isOld0) * (1 - isEqualF key oldKey)) = 0 ∨
      (isOld0 + (1 - isOld0) * (1 - isEqualF key oldKey)) = 1 := by
    rcases hb with rfl | rfl
    · rcases isEqualF_cases key oldKey with h | h <;> rw [h]
      · right
        ring
      · left
        ring
    · right
      ring
  have hB1 : (isOld0 + (1 - isOld0) * (1 - isEqualF key oldKey)) = 1 ↔
      (isOld0 = 1 ∨ oldKey ≠ key) := by
    rcases hb with rfl | rfl
    · rcases isEqualF_cases key oldKey with h | h <;> rw [h]
      · have hne : key ≠ oldKey := fun he => by
          rw [(isEqualF_eq_one_iff key oldKey).mpr he] at h
          exact one_ne_zero h
        have hgoal : (0 : F) + (1 - 0) * (1 - 0) = 1 := by ring
        rw [hgoal]
        simp [Ne.symm hne]
      · have heq : key = oldKey := (isEqualF_eq_one_iff key oldKey).mp h
        have hgoal : (0 : F) + (1 - 0) * (1 - 1) = 0 := by ring
        rw [hgoal]
        constructor
        · intro h0
          exact absurd h0.symm one_ne_zero
        · rintro (h0 | h0)
          · exact absurd h0.symm one_ne_zero
          · exact absurd heq.symm h0
    · have hgoal : (1 : F) + (1 - 1) * (1 - isEqualF key oldKey) = 1 := by ring
      rw [hgoal]
      simp
  have hmain : smtNonInclusion H levels key root siblings isOld0 oldKey oldValue = 1 ↔
      (computeMerkleRoot H (if isOld0 = 1 then 0 else H oldKey oldValue)
          (siblings.zip (keyPathBits levels key.val)) = root ∧
        (isOld0 = 1 ∨ oldKey ≠ key)) := by
    rw [hform, mul01_eq_one_iff hrc hB01, hrc1, hB1]
  have hv01 : smtNonInclusion H levels key root siblings isOld0 oldKey oldValue = 0 ∨
      smtNonInclusion H levels key root siblings isOld0 oldKey oldValue = 1 := by
    rw [hform]
    rcases hrc with h | h <;> rcases hB01 with h' | h' <;> rw [h, h']
    · left
      ring
    · left
      ring
    · left
      ring
    · right
      ring
  refine ⟨hmain, ?_⟩
  rcases hv01 with h0 | h1
  · rw [h0, ← hmain, h0]
    simp [zero_ne_one]
  · rw [h1, ← hmain, h1]
    simp [one_ne_zero]

/-- C8 witness: with a concrete hash, depth 2, key 3 and an empty-slot proof
whose recomputed root is 17, the characterization is exercised at the flag
value 1. -/
theorem smt_noninclusion_spec_witness :
    ((1 : F) = 0 ∨ (1 : F) = 1) ∧
    ((smtNonInclusion wH 2 3 17 w8Sibs 1 0 0 = 1 ↔
      (computeMerkleRoot wH (if (1 : F) = 1 then 0 else wH 0 0)
          (w8Sibs.zip (keyPathBits 2 (3 : F).val)) = 17 ∧
        ((1 : F) = 1 ∨ (0 : F) ≠ 3))) ∧
     (smtNonInclusion wH 2 3 17 w8Sibs 1 0 0 = 0 ↔
      ¬(computeMerkleRoot wH (if (1 : F) = 1 then 0 else wH 0 0)
          (w8Sibs.zip (keyPathBits 2 (3 : F).val)) = 17 ∧
        ((1 : F) = 1 ∨ (0 : F) ≠ 3)))) :=
  ⟨Or.inr rfl, smt_noninclusion_spec wH 2 3 17 w8Sibs 1 0 0 (Or.inr rfl)⟩


end Circuits

namespace MPassVerifierV2

open MPassRegistryV2

theorem consumeNullifier_ok_elim {sender e n : Nat} {s s' : MPassRegistryV2.State}
    (h : consumeNullifier sender e n s = .ok s') :
    nullifierConsumed s e n = false ∧ nullifierConsumed s' e n = true ∧
    s'.roots = s.roots := by
  unfold consumeNullifier at h
  unfold nullifierConsumed
  by_cases he : e = 0
  · have hg : gatewaySelectsGlobal e = true := by
      simp [gatewaySelectsGlobal, he]
    rw [hg] at h
    rw [if_pos rfl] at h
    rw [hg, if_pos rfl, if_pos rfl]
    by_cases hu : s.nullifierUsed n = true
    · rw [if_pos hu] at h
      exact Except.noConfusion h
    · rw [if_neg hu] at h
      unfold useNullifier at h
      rw [if_neg hu] at h
      simp only [Except.ok.injEq] at h
      subst h
      refine ⟨by simp only [Bool.not_eq_true] at hu; exact hu, ?_, rfl⟩
      show updFn s.nullifierUsed n true n = true
      unfold updFn
      rw [if_pos rfl]
  · have hg : gatewaySelectsGlobal e = false := by
      simp [gatewaySelectsGlobal, he]
    rw [hg] at h
    rw [if_neg (by simp)] at h
    rw [hg, if_neg (by simp), if_neg (by simp)]
    by_cases hu : s.eventNullifierUsed e n = true
    · rw [if_pos hu] at h
      exact Except.noConfusion h
    · rw [if_neg hu] at h
      unfold useEventNullifier at h
      rw [if_neg hu] at h
      simp only [Except.ok.injEq] at h
      subst h
      refine ⟨by simp only [Bool.not_eq_true] at hu; exact hu, ?_, rfl⟩
      show updFn2 s.eventNullifierUsed e n true e n = true
      unfold updFn2
      rw [if_pos ⟨rfl, rfl⟩]

theorem consumeNullifier_conflict {sender e n : Nat} {s : MPassRegistryV2.State}
    (h : nullifierConsumed s e n = true) :
    consumeNullifier sender e n s =
      .error (if gatewaySelectsGlobal e then "Nullifier already used"
              else "Nullifier already used for event") := by
  unfold consumeNullifier
  unfold nullifierConsumed at h
  by_cases he : e = 0
  · have hg : gatewaySelectsGlobal e = true := by
      simp [gatewaySelectsGlobal, he]
    rw [hg] at h ⊢
    rw [if_pos rfl] at h
    rw [if_pos rfl, if_pos rfl, if_pos h]
  · have hg : gatewaySelectsGlobal e = false := by
      simp [gatewaySelectsGlobal, he]
    rw [hg] at h ⊢
    rw [if_neg (show ¬(false = true) by simp)] at h
    have hstr : (if (false = true) then "Nullifier already used"
        else "Nullifier already used for event") = "Nullifier already used for event" := by
      simp
    rw [hstr, if_neg (show ¬(false = true) by simp), if_pos h]

theorem verifyAge_ok_elim {oracle : Oracle} {minAge eventId : Nat}
    {proof : List Nat} {v : VState} {r : ProofResult} {v' : VState}
    (h : verifyAgeWithNullifier oracle minAge eventId proof v = .ok (r, v')) :
    v.ageVerifier ≠ 0 ∧
    ∃ pts ins, decodeProof proof = .ok (pts, ins) ∧ 7 ≤ ins.length ∧
      minAge ≤ ins.getD 0 0 ∧
      ins.getD 4 0 = v.registryState.roots.registryRoot ∧
      ins.getD 5 0 = v.registryState.roots.revocationRoot ∧
      ins.getD 6 0 = eventId ∧
      oracle v.ageVerifier pts ins = true ∧
      r = ⟨true, ins.getD (ins.length - 2) 0, ins.getD (ins.length - 1) 0⟩ ∧
      nullifierConsumed v.registryState eventId r.nullifier = false ∧
      nullifierConsumed v'.registryState eventId r.nullifier = true ∧
      v'.registryState.roots = v.registryState.roots ∧
      v'.ageVerifier = v.ageVerifier ∧
      v'.passportVerifier = v.passportVerifier := by
  unfold verifyAgeWithNullifier at h
  by_cases h0 : v.ageVerifier = 0
  · rw [if_pos h0] at h
    exact Except.noConfusion h
  rw [if_neg h0] at h
  cases hd : decodeProof proof with
  | error e =>
      rw [hd] at h
      exact Except.noConfusion h
  | ok pr =>
  obtain ⟨pts, ins⟩ := pr
  rw [hd] at h
  dsimp only at h
  by_cases h1 : ins.length < 7
  · rw [if_pos h1] at h
    exact Except.noConfusion h
  rw [if_neg h1] at h
  by_cases h2 : ins.getD 0 0 < minAge
  · rw [if_pos h2] at h
    exact Except.noConfusion h
  rw [if_neg h2] at h
  by_cases h3 : ins.getD 4 0 ≠ v.registryState.roots.registryRoot
  · rw [if_pos h3] at h
    exact Except.noConfusion h
  rw [if_neg h3] at h
  by_cases h4 : ins.getD 5 0 ≠ v.registryState.roots.revocationRoot
  · rw [if_pos h4] at h
    exact Except.noConfusion h
  rw [if_neg h4] at h
  by_cases h5 : ins.getD 6 0 ≠ eventId
  · rw [if_pos h5] at h
    exact Except.noConfusion h
  rw [if_neg h5] at h
  by_cases h6 : oracle v.ageVerifier pts ins = false
  · rw [if_pos h6] at h
    exact Except.noConfusion h
  rw [if_neg h6] at h
  have h6' : oracle v.ageVerifier pts ins = true := by
    cases hb : oracle v.ageVerifier pts ins
    · exact absurd hb h6
    · rfl
  cases hc : consumeNullifier v.self eventId (ins.getD (ins.length - 2) 0)
      v.registryState with
  | error e =>
      rw [hc] at h
      exact Except.noConfusion h
  | ok rs =>
  rw [hc] at h
  dsimp only at h
  simp only [Except.ok.injEq, Prod.mk.injEq] at h
  obtain ⟨hr, hv'⟩ := h
  obtain ⟨hpre, hpost, hroots⟩ := consumeNullifier_ok_elim hc
  subst hv'
  refine ⟨h0, pts, ins, rfl, by omega, by omega, not_ne_iff.mp h3,
    not_ne_iff.mp h4, not_ne_iff.mp h5, h6', hr.symm, ?_, ?_, hroots, rfl, rfl⟩
  · rw [← hr]
    exact hpre
  · rw [← hr]
    exact hpost

theorem verifyPassport_ok_elim {oracle : Oracle} {eventId : Nat}
    {proof : List Nat} {v : VState} {r : PassportResult} {v' : VState}
    (h : verifyPassportDisclosure oracle eventId proof v = .ok (r, v')) :
    ∃ pts ins, decodeProof proof = .ok (pts, ins) ∧
      ins.getD 0 0 = v.registryState.roots.registryRoot ∧
      ins.getD 1 0 = v.registryState.roots.revocationRoot := by
  unfold verifyPassportDisclosure at h
  by_cases h0 : v.passportVerifier = 0
  · rw [if_pos h0] at h
    exact Except.noConfusion h
  rw [if_neg h0] at h
  cases hd : decodeProof proof with
  | error e =>
      rw [hd] at h
      exact Except.noConfusion h
  | ok pr =>
  obtain ⟨pts, ins⟩ := pr
  rw [hd] at h
  dsimp only at h
  cases hg0 : ins.get? 0 with
  | none =>
      rw [hg0] at h
      exact Except.noConfusion h
  | some i0 =>
  rw [hg0] at h
  dsimp only at h
  by_cases hr0 : i0 ≠ v.registryState.roots.registryRoot
  · rw [if_pos hr0] at h
    exact Except.noConfusion h
  rw [if_neg hr0] at h
  cases hg1 : ins.get? 1 with
  | none =>
      rw [hg1] at h
      exact Except.noConfusion h
  | some i1 =>
  rw [hg1] at h
  dsimp only at h
  by_cases hr1 : i1 ≠ v.registryState.roots.revocationRoot
  · rw [if_pos hr1] at h
    exact Except.noConfusion h
  rw [if_neg hr1] at h
  rw [List.get?_eq_getElem?] at hg0 hg1
  refine ⟨pts, ins, rfl, ?_, ?_⟩
  · rw [List.getD_eq_getElem?_getD, hg0]
    exact not_ne_iff.mp hr0
  · rw [List.getD_eq_getElem?_getD, hg1]
    exact not_ne_iff.mp hr1

end MPassVerifierV2

namespace MPassVerifierV2

open MPassRegistryV2

/-- C1: once the age gateway has successfully consumed the nullifier of a
statement in scope `e`, a later age-gateway call whose decoded statement
carries that same nullifier under the same scope can never succeed, its
transaction leaves the state unchanged, and whenever the later call passes
every earlier gate (shape, predicate sanity, freshness, oracle) it fails with
precisely the nullifier state-conflict revert of its partition. -/
theorem nullifier_single_use_per_scope
    (oracle1 oracle2 : Oracle) (minAge1 minAge2 e : Nat)
    (proof1 proof2 : List Nat) (v : VState) (r1 : ProofResult) (v1 : VState)
    (h1 : verifyAgeWithNullifier oracle1 minAge1 e proof1 v = .ok (r1, v1))
    (pts2 : G16) (ins2 : List Nat)
    (hd : decodeProof proof2 = .ok (pts2, ins2))
    (hN : ins2.getD (ins2.length - 2) 0 = r1.nullifier) :
    (∀ r2 v2, verifyAgeWithNullifier oracle2 minAge2 e proof2 v1 ≠ .ok (r2, v2)) ∧
    (∃ msg, verifyAgeWithNullifier oracle2 minAge2 e proof2 v1 = .error msg) ∧
    stepV (.age oracle2 minAge2 e proof2) v1 = v1 ∧
    (7 ≤ ins2.length → minAge2 ≤ ins2.getD 0 0 →
      ins2.getD 4 0 = v1.registryState.roots.registryRoot →
      ins2.getD 5 0 = v1.registryState.roots.revocationRoot →
      ins2.getD 6 0 = e → oracle2 v1.ageVerifier pts2 ins2 = true →
      verifyAgeWithNullifier oracle2 minAge2 e proof2 v1 =
        .error (if gatewaySelectsGlobal e then "Nullifier already used"
                else "Nullifier already used for event")) := by
  obtain ⟨hAv, pts1, ins1, hd1, hlen1, hmin1, h41, h51, h61, hor1, hr1, hpre1,
    hpost1, hroots1, hAge1, hPass1⟩ := verifyAge_ok_elim h1
  have hused : nullifierConsumed v1.registryState e r1.nullifier = true := hpost1
  have hnever : ∀ r2 v2,
      verifyAgeWithNullifier oracle2 minAge2 e proof2 v1 ≠ .ok (r2, v2) := by
    intro r2 v2 hok
    obtain ⟨_, pts2', ins2', hd2', _, _, _, _, _, _, hr2, hpre2, _⟩ :=
      verifyAge_ok_elim hok
    have hinj := hd.symm.trans hd2'
    simp only [Except.ok.injEq, Prod.mk.injEq] at hinj
    obtain ⟨hp, hi⟩ := hinj
    subst hp
    subst hi
    have hn2 : r2.nullifier = r1.nullifier := by
      rw [hr2, ← hN]
    rw [hn2] at hpre2
    rw [hused] at hpre2
    exact Bool.noConfusion hpre2
  have herr : ∃ msg,
      verifyAgeWithNullifier oracle2 minAge2 e proof2 v1 = .error msg := by
    cases hres : verifyAgeWithNullifier oracle2 minAge2 e proof2 v1 with
    | error msg => exact ⟨msg, rfl⟩
    | ok pr =>
        obtain ⟨r2, v2⟩ := pr
        exact absurd hres (hnever r2 v2)
  obtain ⟨msg, hmsg⟩ := herr
  refine ⟨hnever, ⟨msg, hmsg⟩, ?_, ?_⟩
  · simp only [stepV, hmsg]
  · intro h7 hA h4 h5 h6 hOr
    have hAv1 : ¬(v1.ageVerifier = 0) := by
      rw [hAge1]
      exact hAv
    have hused2 : nullifierConsumed v1.registryState e
        (ins2.getD (ins2.length - 2) 0) = true := by
      rw [hN]
      exact hused
    unfold verifyAgeWithNullifier
    rw [if_neg hAv1, hd]
    dsimp only
    rw [if_neg (show ¬(ins2.length < 7) by omega),
        if_neg (show ¬(ins2.getD 0 0 < minAge2) by omega),
        if_neg (not_not_intro h4), if_neg (not_not_intro h5),
        if_neg (not_not_intro h6),
        if_neg (show ¬(oracle2 v1.ageVerifier pts2 ins2 = false) by simp [hOr]),
        consumeNullifier_conflict hused2]

/-- C1 witness: a conforming age statement with nullifier 42 in the global
scope succeeds once from a fresh deployment; the identical second call is
rejected with the state-conflict revert and changes nothing. -/
theorem nullifier_single_use_per_scope_witness :
    verifyAgeWithNullifier oracleT 0 0 w1Proof w1State = .ok (⟨true, 42, 9⟩, w1Post) ∧
    decodeProof w1Proof = .ok (g16Zero, w1Ins) ∧
    w1Ins.getD (w1Ins.length - 2) 0 = (⟨true, 42, 9⟩ : ProofResult).nullifier ∧
    ((∀ r2 v2, verifyAgeWithNullifier oracleT 0 0 w1Proof w1Post ≠ .ok (r2, v2)) ∧
     (∃ msg, verifyAgeWithNullifier oracleT 0 0 w1Proof w1Post = .error msg) ∧
     stepV (.age oracleT 0 0 w1Proof) w1Post = w1Post ∧
     (7 ≤ w1Ins.length → 0 ≤ w1Ins.getD 0 0 →
       w1Ins.getD 4 0 = w1Post.registryState.roots.registryRoot →
       w1Ins.getD 5 0 = w1Post.registryState.roots.revocationRoot →
       w1Ins.getD 6 0 = 0 → oracleT w1Post.ageVerifier g16Zero w1Ins = true →
       verifyAgeWithNullifier oracleT 0 0 w1Proof w1Post =
         .error (if gatewaySelectsGlobal 0 then "Nullifier already used"
                 else "Nullifier already used for event"))) :=
  ⟨rfl, rfl, rfl,
   nullifier_single_use_per_scope oracleT oracleT 0 0 0 w1Proof w1Proof w1State
     ⟨true, 42, 9⟩ w1Post rfl g16Zero w1Ins rfl rfl⟩

/-- C2 amended: both nullifier-consuming gateway entry points reject a
statement whose claimed roots differ from the registry's current roots before
consuming anything, even with an accepting oracle; the age entry point
additionally rejects a scope mismatch, while the passport entry point checks
only the two roots. -/
theorem freshness_before_consumption :
    (∀ (oracle : Oracle) (minAge eventId : Nat) (proof : List Nat) (v : VState)
        (pts : G16) (ins : List Nat), decodeProof proof = .ok (pts, ins) →
        (ins.getD 4 0 ≠ v.registryState.roots.registryRoot ∨
         ins.getD 5 0 ≠ v.registryState.roots.revocationRoot ∨
         ins.getD 6 0 ≠ eventId) →
        (∃ msg, verifyAgeWithNullifier oracle minAge eventId proof v = .error msg) ∧
        stepV (.age oracle minAge eventId proof) v = v) ∧
    (∀ (oracle : Oracle) (eventId : Nat) (proof : List Nat) (v : VState)
        (pts : G16) (ins : List Nat), decodeProof proof = .ok (pts, ins) →
        (ins.getD 0 0 ≠ v.registryState.roots.registryRoot ∨
         ins.getD 1 0 ≠ v.registryState.roots.revocationRoot) →
        (∃ msg, verifyPassportDisclosure oracle eventId proof v = .error msg) ∧
        stepV (.passport oracle eventId proof) v = v) := by
  constructor
  · intro oracle minAge eventId proof v pts ins hd hmis
    have hnever : ∀ r v',
        verifyAgeWithNullifier oracle minAge eventId proof v ≠ .ok (r, v') := by
      intro r v' hok
      obtain ⟨_, pts', ins', hd', _, _, h4, h5, h6, _⟩ := verifyAge_ok_elim hok
      have hinj := hd.symm.trans hd'
      simp only [Except.ok.injEq, Prod.mk.injEq] at hinj
      obtain ⟨hp, hi⟩ := hinj
      subst hp
      subst hi
      rcases hmis with hm | hm | hm
      · exact hm h4
      · exact hm h5
      · exact hm h6
    have herr : ∃ msg,
        verifyAgeWithNullifier oracle minAge eventId proof v = .error msg := by
      cases hres : verifyAgeWithNullifier oracle minAge eventId proof v with
      | error msg => exact ⟨msg, rfl⟩
      | ok pr =>
          obtain ⟨r, v'⟩ := pr
          exact absurd hres (hnever r v')
    obtain ⟨msg, hmsg⟩ := herr
    exact ⟨⟨msg, hmsg⟩, by simp only [stepV, hmsg]⟩
  · intro oracle eventId proof v pts ins hd hmis
    have hnever : ∀ r v',
        verifyPassportDisclosure oracle eventId proof v ≠ .ok (r, v') := by
      intro r v' hok
      obtain ⟨pts', ins', hd', h0', h1'⟩ := verifyPassport_ok_elim hok
      have hinj := hd.symm.trans hd'
      simp only [Except.ok.injEq, Prod.mk.injEq] at hinj
      obtain ⟨hp, hi⟩ := hinj
      subst hp
      subst hi
      rcases hmis with hm | hm
      · exact hm h0'
      · exact hm h1'
    have herr : ∃ msg,
        verifyPassportDisclosure oracle eventId proof v = .error msg := by
      cases hres : verifyPassportDisclosure oracle eventId proof v with
      | error msg => exact ⟨msg, rfl⟩
      | ok pr =>
          obtain ⟨r, v'⟩ := pr
          exact absurd hres (hnever r v')
    obtain ⟨msg, hmsg⟩ := herr
    exact ⟨⟨msg, hmsg⟩, by simp only [stepV, hmsg]⟩

/-- C2 witness: an all-zero age statement is stale against a registry whose
live registry root is 1, so the call reverts and the state is unchanged. -/
theorem freshness_before_consumption_witness :
    decodeProof w2Proof = .ok (g16Zero, w2Ins) ∧
    w2Ins.getD 4 0 ≠ w2State.registryState.roots.registryRoot ∧
    ((∃ msg, verifyAgeWithNullifier oracleT 0 0 w2Proof w2State = .error msg) ∧
     stepV (.age oracleT 0 0 w2Proof) w2State = w2State) :=
  ⟨rfl, by decide,
   freshness_before_consumption.1 oracleT 0 0 w2Proof w2State g16Zero w2Ins rfl
     (Or.inl (by decide))⟩

/-- C2 counterexample: the passport entry point performs no scope-match
check.  A statement whose spec-modelled scope slot holds 5 is accepted under
caller-supplied scope 7 with fresh roots and an accepting oracle, and its
nullifier is consumed in partition 7 — the call is not rejected. -/
theorem passport_scope_mismatch_not_rejected :
    passportStatementScope pxIns = 5 ∧
    (5 : Nat) ≠ 7 ∧
    decodeProof pxProof = .ok (g16Zero, pxIns) ∧
    verifyPassportDisclosure oracleT 7 pxProof w1State =
      .ok (⟨⟨true, 77, 66⟩, 1, 2, 3⟩, pxPost) ∧
    nullifierConsumed pxPost.registryState 7 77 = true :=
  ⟨rfl, by decide, rfl, rfl, rfl⟩

/-- C10 amended: the verify-only entry point never performs the
check-and-consume step: it consumes no nullifier and mutates no state; it
performs structural validation of the blob and hands the decoded statement
straight to the proof oracle, with no predicate-sanity and no freshness gate
in between. -/
theorem verify_only_never_consumes :
    (∀ (oracle : Oracle) (verifier : Nat) (proof : List Nat) (v : VState),
       stepV (.proofOnly oracle verifier proof) v = v) ∧
    (∀ (oracle : Oracle) (verifier : Nat) (proof : List Nat),
       proof.length < 256 →
       verifyProofOnly oracle verifier proof = .error "Proof too short") ∧
    (∀ (oracle : Oracle) (verifier : Nat) (proof : List Nat) (pts : G16)
        (ins : List Nat), decodeProof proof = .ok (pts, ins) →
       verifyProofOnly oracle verifier proof = .ok (oracle verifier pts ins)) := by
  refine ⟨fun _ _ _ _ => rfl, ?_, ?_⟩
  · intro oracle verifier proof hlen
    unfold verifyProofOnly decodeProof
    rw [if_pos hlen]
  · intro oracle verifier proof pts ins hd
    unfold verifyProofOnly
    rw [hd]

/-- C10 amended witness: the verify-only entry point on an empty blob leaves
any state unchanged and reports the structural failure. -/
theorem verify_only_never_consumes_witness :
    stepV (.proofOnly oracleT 3 []) w1State = w1State ∧
    verifyProofOnly oracleT 3 [] = .error "Proof too short" :=
  ⟨verify_only_never_consumes.1 oracleT 3 [] w1State,
   verify_only_never_consumes.2.1 oracleT 3 [] (by decide)⟩

/-- C10 counterexample: on a statement claiming registry root 9 against live
root 0, the full age gateway rejects at the freshness gate (step 3) while the
verify-only variant accepts the same blob, so the verify-only variant does
not perform steps 1 through 4 — the freshness gate is absent from it. -/
theorem verify_only_skips_freshness :
    verifyProofOnly oracleT 3 c10Proof = .ok true ∧
    c10Ins.getD 4 0 ≠ w1State.registryState.roots.registryRoot ∧
    verifyAgeWithNullifier oracleT 0 0 c10Proof w1State =
      .error "Invalid registry root" :=
  ⟨rfl, by decide, rfl⟩

end MPassVerifierV2
